import Mathlib

/-!
Shallow embedding of the rendering-and-capture engine of the
music-waves-visualizer repository, together with theorems settling the
frozen claims about it.

Numeric JS values are modelled over `ℚ` (exact arithmetic), except where
the source itself computes a square root (`drawLine`), which is modelled
over `ℝ`.  Machine-integer and byte values are `ℕ`.
-/

namespace MusicWaves

/-- `Math.round` in JS: round half toward positive infinity. -/
def jsRound (q : ℚ) : ℤ := Int.floor (q + 1 / 2)

/-- `ModeAdjustments` record (src/lib/Canvas.ts lines 1-6):
scale factors and percentage offsets supplied by the UI. -/
structure ModeAdjustments where
  scaleX : ℚ
  scaleY : ℚ
  offsetX : ℚ
  offsetY : ℚ
deriving DecidableEq

/-- The identity adjustment record (the default used by the renderers:
`{scaleX: 1.0, scaleY: 1.0, offsetX: 0, offsetY: 0}`). -/
def identityAdj : ModeAdjustments := ⟨1, 1, 0, 0⟩

/-- `applyTransform` (src/lib/WebGLRenderer.ts lines 1046-1071):
converts the percentage offsets to pixels, translates the point so the
canvas center is the origin, scales, translates back and adds the offsets. -/
def applyTransform (x y canvasWidth canvasHeight : ℚ)
    (adj : ModeAdjustments) : ℚ × ℚ :=
  let offsetXPixels := (canvasWidth * adj.offsetX) / 100
  let offsetYPixels := (canvasHeight * adj.offsetY) / 100
  let tx := (x - canvasWidth / 2) * adj.scaleX + (canvasWidth / 2 + offsetXPixels)
  let ty := (y - canvasHeight / 2) * adj.scaleY + (canvasHeight / 2 + offsetYPixels)
  (tx, ty)

/-- The two transformed corners of the rectangle of bar `i` in `drawMode0`
(src/lib/WebGLRenderer.ts lines 785-812): the bar starts at `barX`,
is `canvasWidth / 128` wide, its top edge sits at `canvasHeight - v`
for sample value `v`, and both corners go through `applyTransform`. -/
def drawMode0Bar (barX v canvasWidth canvasHeight : ℚ)
    (adj : ModeAdjustments) : (ℚ × ℚ) × (ℚ × ℚ) :=
  let barWidth := canvasWidth / 128
  let y := canvasHeight - v
  (applyTransform barX y canvasWidth canvasHeight adj,
   applyTransform (barX + barWidth) (y + v) canvasWidth canvasHeight adj)

/-- The two transformed corners of the rectangle of bar `i` in `drawMode3`
(src/lib/WebGLRenderer.ts lines 879-908): `barWidth = canvasWidth / 128`,
`barHeight = v * 2`, top-left at `(i*barWidth, centerY - barHeight/2)`,
bottom-right at `(x + barWidth - 1, y + barHeight)`, both transformed. -/
def mode3Bar (i : ℕ) (v canvasWidth canvasHeight : ℚ)
    (adj : ModeAdjustments) : (ℚ × ℚ) × (ℚ × ℚ) :=
  let barWidth := canvasWidth / 128
  let centerY := canvasHeight / 2
  let barHeight := v * 2
  let x := (i : ℚ) * barWidth
  let y := centerY - barHeight / 2
  (applyTransform x y canvasWidth canvasHeight adj,
   applyTransform (x + barWidth - 1) (y + barHeight) canvasWidth canvasHeight adj)

/-- Letterboxed placement of a raw image on the canvas, shared by
`drawImageToOffscreen` (src/unnamed/part_001 lines 89-111) and
`drawBackgroundWebGL` / `prepareImageTexture`
(src/lib/WebGLRenderer.ts lines 293-315 and 399-421).
Returns `(imageCtxWidth, imageCtxHeight, posX, posY)`. -/
def letterbox (rawWidth rawHeight canvasWidth canvasHeight : ℚ) :
    ℚ × ℚ × ℚ × ℚ :=
  let canvasAspect := canvasWidth / canvasHeight
  let imageAspect := rawWidth / rawHeight
  let size : ℚ × ℚ :=
    if imageAspect > canvasAspect then
      (canvasWidth, (jsRound (canvasWidth / imageAspect) : ℚ))
    else
      ((jsRound (canvasHeight * imageAspect) : ℚ), canvasHeight)
  let marginWidth := canvasWidth - size.1
  let posX := if marginWidth = 0 then 0 else marginWidth / 2
  let marginHeight := canvasHeight - size.2
  let posY := if marginHeight = 0 then 0 else marginHeight / 2
  (size.1, size.2, posX, posY)

/-- Buffer indices read by `drawMode0` (src/lib/WebGLRenderer.ts lines
785-812, identical loop in src/unnamed/part_001 lines 201-211):
`for i in [0, 128)` read `bufferData[i]` directly. -/
def mode0Indices : List ℕ := List.range 128

/-- Buffer indices read by `drawMode1` (src/lib/WebGLRenderer.ts lines
814-839): `for i in [0, L-1)` read `bufferData[i]` and `bufferData[i+1]`. -/
def mode1Indices (bufferLength : ℕ) : List ℕ :=
  (List.range (bufferLength - 1)).map id ++
    (List.range (bufferLength - 1)).map (· + 1)

/-- Buffer indices read by `drawMode2` (src/lib/WebGLRenderer.ts lines
841-876, identical in src/unnamed/part_001 lines 228-254): the bass read
`bufferData[1]` followed by `for i in [0, 256)` reading `bufferData[i]`. -/
def mode2Indices : List ℕ := 1 :: List.range 256

/-- Buffer indices read by `drawMode3` (src/lib/WebGLRenderer.ts lines
879-908, identical loop in src/unnamed/part_001 lines 255-283):
`for i in [0, 128)` read `bufferData[i]` directly. -/
def mode3Indices : List ℕ := List.range 128

/-- Buffer indices read by `drawMode4` (src/lib/WebGLRenderer.ts lines
911-945): `for col in [0, 32)` read `bufferData[floor(col / 32 * L)]`. -/
def mode4Indices (bufferLength : ℕ) : List ℕ :=
  (List.range 32).map (fun col => col * bufferLength / 32)

/-- Buffer indices read by `drawMode5` (src/lib/WebGLRenderer.ts lines
948-977): `for i in [0, L-1)` read `bufferData[i]` and `bufferData[i+1]`. -/
def mode5Indices (bufferLength : ℕ) : List ℕ :=
  (List.range (bufferLength - 1)).map id ++
    (List.range (bufferLength - 1)).map (· + 1)

/-- Buffer indices read by `drawMode6` (src/lib/WebGLRenderer.ts lines
980-1018): `for i in [0, 64)` read `bufferData[floor(i / 64 * L)]`. -/
def mode6Indices (bufferLength : ℕ) : List ℕ :=
  (List.range 64).map (fun i => i * bufferLength / 64)

/-- All buffer indices read by the coordinate computations of the mode
dispatched in `renderFrame` (src/lib/WebGLRenderer.ts lines 684-720)
for a sample buffer of length `bufferLength`. -/
def readIndices (mode bufferLength : ℕ) : List ℕ :=
  match mode with
  | 0 => mode0Indices
  | 1 => mode1Indices bufferLength
  | 2 => mode2Indices
  | 3 => mode3Indices
  | 4 => mode4Indices bufferLength
  | 5 => mode5Indices bufferLength
  | 6 => mode6Indices bufferLength
  | _ => []

/-- The `imageCache`/`imageTexture` part of `WebGLRendererContext`
(src/lib/WebGLRenderer.ts lines 75-80): the cached background key is
the image identity plus the canvas size, and `hasTexture` records
whether `imageTexture` is non-null.  Image identities are `ℕ`. -/
structure ImageCacheGL where
  image : Option ℕ
  width : ℕ
  height : ℕ
  hasTexture : Bool
deriving DecidableEq

/-- `prepareImageTexture` (src/lib/WebGLRenderer.ts lines 367-454)
restricted to its cache behaviour: if the cached image identity and
canvas size match and a texture exists, return unchanged (`false` = no
recomputation); otherwise recompute the composite, upload the texture
and update the cache (`true` = recomputed). -/
def prepareImageTexture (c : ImageCacheGL) (image canvasWidth canvasHeight : ℕ) :
    ImageCacheGL × Bool :=
  if c.image = some image ∧ c.width = canvasWidth ∧
      c.height = canvasHeight ∧ c.hasTexture then
    (c, false)
  else
    (⟨some image, canvasWidth, canvasHeight, true⟩, true)

/-- Events observable by a `QuickVideoEncoder` session inside
`encodeWithCanvas2D` (src/lib/QuickVideoEncoder.ts lines 292-316):
`data n` is an `ondataavailable` event carrying a chunk of size `n`,
`cancel` is a call to `cancel()` (lines 239-244), and `stopFired` is the
`onstop` callback of the recorder running. -/
inductive SessionEv where
  | data (size : ℕ)
  | cancel
  | stopFired
deriving DecidableEq

/-- State of one encode session: the `cancelled` flag, the accumulated
`recordedChunks` (chunk sizes), and the settled promise outcome
(`none` while pending). -/
structure Session where
  cancelled : Bool
  chunks : List ℕ
  outcome : Option (Except String (List ℕ))

/-- One session step.  `ondataavailable` pushes every chunk whose size is
positive; `cancel()` sets the cancelled flag; `onstop` settles the
promise exactly once, rejecting with `"Cancelled"` when the session was
cancelled and otherwise resolving with the accumulated chunks. -/
def sessionStep (s : Session) (e : SessionEv) : Session :=
  match e with
  | .data n => if 0 < n then { s with chunks := s.chunks ++ [n] } else s
  | .cancel => { s with cancelled := true }
  | .stopFired =>
      match s.outcome with
      | none =>
          let result : Except String (List ℕ) :=
            if s.cancelled then Except.error "Cancelled" else Except.ok s.chunks
          { s with outcome := some result }
      | some _ => s

/-- A fresh session: not cancelled, no chunks, promise pending. -/
def sessionInit : Session := ⟨false, [], none⟩

/-- Run a session over a list of events. -/
def sessionRun (evs : List SessionEv) : Session :=
  evs.foldl sessionStep sessionInit

/-- The parameter record captured by the `latest*` module globals of the
WebGL draw loop (src/lib/WebGLRenderer.ts lines 96-101): canvas, image,
mode, analyser and adjustments.  Handles are modelled by `ℕ` identities. -/
structure GLParams where
  canvas : ℕ
  image : ℕ
  mode : ℕ
  analyser : ℕ
  adjustments : ModeAdjustments
deriving DecidableEq

/-- Scheduling-relevant module state of the WebGL draw loop
(src/lib/WebGLRenderer.ts lines 83-101): the `isAnimating` flag, the
`latest*` parameters (`none` before the first start), and the number of
animation-frame callbacks currently scheduled. -/
structure GLState where
  isAnimating : Bool
  latest : Option GLParams
  pending : ℕ
deriving DecidableEq

/-- Events of the draw loop: `start p ok` is a `drawBarsWebGL` call with
parameters `p` where `ok` tells whether WebGL context creation succeeds
(src/lib/WebGLRenderer.ts lines 738-782); `tick` is a scheduled
animation-frame callback firing and running `renderFrame` (lines
624-733); `stop` is `stopWebGLAnimation` (lines 1083-1090). -/
inductive GLEv where
  | start (p : GLParams) (contextOk : Bool)
  | tick
  | stop
deriving DecidableEq

/-- One draw-loop step.  `drawBarsWebGL` always stores the latest
parameters; when already animating it returns at once; otherwise it
sets `isAnimating`, and on context success runs `renderFrame`, which
schedules exactly one next callback (on failure it resets the flag and
schedules nothing).  A firing `tick` consumes its scheduled callback and
`renderFrame` either reschedules one callback or, when the required
parameters are missing, clears `isAnimating` and stops.  `stop` cancels
the stored pending callback (at most one id is stored). -/
def stepGL (s : GLState) (e : GLEv) : GLState :=
  match e with
  | .start p ok =>
      if s.isAnimating then { s with latest := some p }
      else if ok then ⟨true, some p, s.pending + 1⟩
      else ⟨false, some p, s.pending⟩
  | .tick =>
      if s.pending = 0 then s
      else
        match s.latest with
        | none => ⟨false, s.latest, s.pending - 1⟩
        | some _ => { s with pending := s.pending - 1 + 1 }
  | .stop => ⟨false, s.latest, s.pending - 1⟩

/-- Initial module state: not animating, no parameters, nothing scheduled. -/
def initGL : GLState := ⟨false, none, 0⟩

/-- Run the draw loop over a list of events. -/
def runGL (evs : List GLEv) : GLState :=
  evs.foldl stepGL initGL

/-- FPS accumulator state (src/lib/WebGLRenderer.ts lines 85-88):
`fpsCounter`, `fpsLastTime` and the published `currentFPS`. -/
structure FpsState where
  counter : ℕ
  lastTime : ℚ
  fps : ℤ
deriving DecidableEq

/-- The FPS accounting executed once per rendered frame
(src/lib/WebGLRenderer.ts lines 722-729, identical in
src/unnamed/part_001 lines 382-390): increment the counter; once at
least 1000 ms have elapsed since the window start, publish
`Math.round(counter * 1000 / elapsed)` and reset counter and window. -/
def fpsTick (s : FpsState) (now : ℚ) : FpsState :=
  let counter := s.counter + 1
  let elapsed := now - s.lastTime
  if 1000 ≤ elapsed then
    ⟨0, now, jsRound (((counter : ℚ) * 1000) / elapsed)⟩
  else
    { s with counter := counter }

/-- Run the FPS accumulator over a list of tick times. -/
def ticksRun (s : FpsState) (ts : List ℚ) : FpsState :=
  ts.foldl fpsTick s

/-- The length of the segment drawn by the WebGL `drawLine`
(src/lib/WebGLRenderer.ts lines 529-532). -/
noncomputable def lineLen (x1 y1 x2 y2 : ℝ) : ℝ :=
  let dx := x2 - x1
  let dy := y2 - y1
  Real.sqrt (dx * dx + dy * dy)

/-- `drawLine` (src/lib/WebGLRenderer.ts lines 515-569): a line is drawn
as a quad of two triangles offset by the unit normal; when the segment
length is zero the function returns without drawing (`none`), so the
divisions by `len` in the normal only happen when `len ≠ 0`. -/
noncomputable def drawLine (x1 y1 x2 y2 lineWidth : ℝ) :
    Option (List (ℝ × ℝ)) :=
  let dx := x2 - x1
  let dy := y2 - y1
  let len := lineLen x1 y1 x2 y2
  if len = 0 then none
  else
    let nx := -dy / len
    let ny := dx / len
    let hw := lineWidth / 2
    some [(x1 + nx * hw, y1 + ny * hw),
          (x2 + nx * hw, y2 + ny * hw),
          (x1 - nx * hw, y1 - ny * hw),
          (x1 - nx * hw, y1 - ny * hw),
          (x2 + nx * hw, y2 + ny * hw),
          (x2 - nx * hw, y2 - ny * hw)]

/-! ## Theorems -/

/-- Evaluation rule for `jsRound`. -/
theorem jsRound_eq (q : ℚ) (n : ℤ) (h1 : (n : ℚ) ≤ q + 1 / 2)
    (h2 : q + 1 / 2 < n + 1) : jsRound q = n :=
  Int.floor_eq_iff.mpr ⟨h1, h2⟩

/-- `jsRound` is the identity on integers. -/
theorem jsRound_intCast (n : ℤ) : jsRound (n : ℚ) = n := by
  unfold jsRound
  rw [add_comm, Int.floor_add_int]
  norm_num

/-- C2: for every point, surface size and adjustment record,
`applyTransform` returns
`((x − W/2)·scaleX + W/2 + W·offsetX/100, (y − H/2)·scaleY + H/2 + H·offsetY/100)`
(translate to the surface center, scale, translate back, add the
percentage offsets converted to pixels), and with the identity
adjustment record it returns `(x, y)` unchanged. -/
theorem applyTransform_spec (x y W H : ℚ) (adj : ModeAdjustments) :
    applyTransform x y W H adj =
      ((x - W / 2) * adj.scaleX + W / 2 + W * adj.offsetX / 100,
       (y - H / 2) * adj.scaleY + H / 2 + H * adj.offsetY / 100) ∧
    applyTransform x y W H identityAdj = (x, y) := by
  constructor <;>
    simp only [applyTransform, identityAdj, Prod.mk.injEq] <;>
    constructor <;> ring

/-- C10: `applyTransform` is a rectangle homomorphism —
`applyTransform (x+w, y+h) − applyTransform (x, y) = (w·scaleX, h·scaleY)`
independently of `x` and `y` — and consequently the transformed bar
width computed in `drawMode0` from two transformed corners equals the
logical bar width `W/128` scaled by `scaleX`, regardless of position
and sample value. -/
theorem applyTransform_rect_hom (x y w h W H : ℚ) (adj : ModeAdjustments) :
    ((applyTransform (x + w) (y + h) W H adj).1 -
        (applyTransform x y W H adj).1 = w * adj.scaleX ∧
     (applyTransform (x + w) (y + h) W H adj).2 -
        (applyTransform x y W H adj).2 = h * adj.scaleY) ∧
    ∀ barX v : ℚ,
      ((drawMode0Bar barX v W H adj).2).1 - ((drawMode0Bar barX v W H adj).1).1 =
        W / 128 * adj.scaleX := by
  refine ⟨⟨?_, ?_⟩, fun barX v => ?_⟩ <;>
    simp only [applyTransform, drawMode0Bar] <;> ring

/-- C4: for a 4000×2000 image on a 1080×1920 surface, the letterboxed
placement is width-constrained with `imageWidth = 1080`, aspect-ratio
height 540, horizontal position 0 and vertical position 690, with equal
nonzero top and bottom margins (`1920 − 690 − 540 = 690 > 0`). -/
theorem letterbox_4000x2000_on_1080x1920 :
    letterbox 4000 2000 1080 1920 = (1080, 540, 0, 690) ∧
    (1920 : ℚ) - 690 - 540 = 690 ∧ (0 : ℚ) < 690 := by
  refine ⟨?_, by norm_num, by norm_num⟩
  have hj : jsRound ((1080 : ℚ) / (4000 / 2000)) = 540 :=
    jsRound_eq _ 540 (by norm_num) (by norm_num)
  simp only [letterbox]
  rw [if_pos (by norm_num : (4000 : ℚ) / 2000 > 1080 / 1920), hj]
  norm_num

/-- C3 counterexample: on a 1920×1080 surface with an all-255 buffer and
identity adjustments, bar 0 of mode 3 spans from y = 285 to y = 795, so
it does not span the full surface height 0..1080 as the claim states. -/
theorem mode3_full_span_fails :
    ((mode3Bar 0 255 1920 1080 identityAdj).1).2 = 285 ∧
    ((mode3Bar 0 255 1920 1080 identityAdj).2).2 = 795 ∧
    ¬(((mode3Bar 0 255 1920 1080 identityAdj).1).2 = 0 ∧
      ((mode3Bar 0 255 1920 1080 identityAdj).2).2 = 1080) := by
  have h1 : ((mode3Bar 0 255 1920 1080 identityAdj).1).2 = 285 := by
    simp only [mode3Bar, applyTransform, identityAdj]
    norm_num
  have h2 : ((mode3Bar 0 255 1920 1080 identityAdj).2).2 = 795 := by
    simp only [mode3Bar, applyTransform, identityAdj]
    norm_num
  refine ⟨h1, h2, fun h => ?_⟩
  have h0 := h.1.symm.trans h1
  norm_num at h0

/-- C3 amended: in mode 3 with an all-255 buffer (and identity
adjustments), every bar is split evenly above and below the vertical
center but has the fixed total height 510 = 2·255 pixels: it spans from
`surfaceHeight/2 − 255` to `surfaceHeight/2 + 255`, which equals the
full surface 0..surfaceHeight exactly when `surfaceHeight = 510`. -/
theorem mode3_bar_span (i : ℕ) (W H : ℚ) :
    ((mode3Bar i 255 W H identityAdj).1).2 = H / 2 - 255 ∧
    ((mode3Bar i 255 W H identityAdj).2).2 = H / 2 + 255 ∧
    ((mode3Bar i 255 W H identityAdj).2).2 - H / 2 =
      H / 2 - ((mode3Bar i 255 W H identityAdj).1).2 ∧
    (H = 510 →
      ((mode3Bar i 255 W H identityAdj).1).2 = 0 ∧
      ((mode3Bar i 255 W H identityAdj).2).2 = H) := by
  have e1 : ((mode3Bar i 255 W H identityAdj).1).2 = H / 2 - 255 := by
    simp only [mode3Bar, applyTransform, identityAdj]
    ring
  have e2 : ((mode3Bar i 255 W H identityAdj).2).2 = H / 2 + 255 := by
    simp only [mode3Bar, applyTransform, identityAdj]
    ring
  refine ⟨e1, e2, by rw [e1, e2]; ring, fun hH => ⟨?_, ?_⟩⟩
  · rw [e1, hH]; norm_num
  · rw [e2, hH]; norm_num

/-- C3 witness: at `surfaceHeight = 510` the amended span is the full
surface, from 0 to 510. -/
theorem mode3_bar_span_witness :
    ((mode3Bar 0 255 1920 510 identityAdj).1).2 = 0 ∧
    ((mode3Bar 0 255 1920 510 identityAdj).2).2 = 510 :=
  (mode3_bar_span 0 1920 510).2.2.2 rfl

/-- C1 (falsified by the code): modes 0, 2 and 3 index the sample buffer
directly up to their fixed bar tally, so for buffers shorter than the
tally the drawing loops read indices at or beyond the buffer length:
index 64 is read by mode 0 at length 64, index 255 by mode 2 at length
200, and index 127 by mode 3 at length 100. -/
theorem readIndices_out_of_bounds :
    (∃ i ∈ readIndices 0 64, 64 ≤ i) ∧
    (∃ i ∈ readIndices 2 200, 200 ≤ i) ∧
    (∃ i ∈ readIndices 3 100, 100 ≤ i) := by
  refine ⟨⟨64, ?_, by norm_num⟩, ⟨255, ?_, by norm_num⟩,
    ⟨127, ?_, by norm_num⟩⟩ <;> decide

/-- C5: the background texture preparation is cache-idempotent — after
any `prepareImageTexture` call with triple `(img, w, h)`, an immediate
second call with the same triple performs no recomputation, and a
second call whose triple differs in any component recomputes. -/
theorem prepare_cache_idempotent (c : ImageCacheGL) (img w h img2 w2 h2 : ℕ) :
    (prepareImageTexture (prepareImageTexture c img w h).1 img w h).2 = false ∧
    ((img2, w2, h2) ≠ (img, w, h) →
      (prepareImageTexture (prepareImageTexture c img w h).1 img2 w2 h2).2 = true) := by
  have key : ∀ s : ImageCacheGL,
      s.image = some img → s.width = w → s.height = h → s.hasTexture = true →
      (prepareImageTexture s img w h).2 = false ∧
      ((img2, w2, h2) ≠ (img, w, h) →
        (prepareImageTexture s img2 w2 h2).2 = true) := by
    intro s e1 e2 e3 e4
    constructor
    · unfold prepareImageTexture
      rw [if_pos ⟨e1, e2, e3, e4⟩]
    · intro hne
      unfold prepareImageTexture
      rw [if_neg]
      rintro ⟨k1, k2, k3, -⟩
      apply hne
      rw [e1] at k1
      rw [e2] at k2
      rw [e3] at k3
      simp only [Option.some.injEq] at k1
      simp [Prod.ext_iff, k1, k2, k3]
  have base : (prepareImageTexture c img w h).1.image = some img ∧
      (prepareImageTexture c img w h).1.width = w ∧
      (prepareImageTexture c img w h).1.height = h ∧
      (prepareImageTexture c img w h).1.hasTexture = true := by
    unfold prepareImageTexture
    split
    · next hcond => exact hcond
    · exact ⟨rfl, rfl, rfl, rfl⟩
  exact key _ base.1 base.2.1 base.2.2.1 base.2.2.2

/-- C5 witness: starting from the empty cache, preparing `(1, 100, 50)`
and then `(2, 100, 50)` (the image identity swapped) recomputes. -/
theorem prepare_cache_recompute_witness :
    (prepareImageTexture
      (prepareImageTexture ⟨none, 0, 0, false⟩ 1 100 50).1 2 100 50).2 = true :=
  (prepare_cache_idempotent ⟨none, 0, 0, false⟩ 1 100 50 2 100 50).2 (by decide)

/-- Ticks that all fall strictly inside the current 1-second window only
increment the counter; the window start and published FPS are untouched. -/
theorem ticksRun_no_publish (t0 : ℚ) (f : ℤ) :
    ∀ (ts : List ℚ) (k : ℕ), (∀ t ∈ ts, t - t0 < 1000) →
      ticksRun ⟨k, t0, f⟩ ts = ⟨k + ts.length, t0, f⟩ := by
  intro ts
  induction ts with
  | nil => intro k _; simp [ticksRun]
  | cons t ts ih =>
      intro k hlt
      have h1 : ¬(1000 ≤ t - t0) := not_le.mpr (hlt t (List.mem_cons_self t ts))
      have hstep : fpsTick ⟨k, t0, f⟩ t = ⟨k + 1, t0, f⟩ := by
        simp [fpsTick, h1]
      have hrest := ih (k + 1) (fun u hu => hlt u (List.mem_cons_of_mem t hu))
      calc ticksRun ⟨k, t0, f⟩ (t :: ts)
      _ = ticksRun (fpsTick ⟨k, t0, f⟩ t) ts := by
            simp [ticksRun, List.foldl_cons]
      _ = ticksRun ⟨k + 1, t0, f⟩ ts := by rw [hstep]
      _ = ⟨k + 1 + ts.length, t0, f⟩ := hrest
      _ = ⟨k + (t :: ts).length, t0, f⟩ := by
            simp [List.length_cons]
            omega

/-- C8: the FPS accumulator counts one per tick, and once at least 1000 ms
have elapsed since the window start it publishes
`round(count·1000/elapsed)` and resets the counter and window start;
consequently, ticks at times `ts` inside the window followed by a tick
exactly at `t0 + 1000` report an FPS equal to the number of ticks in the
window, with the counter back at zero for the new window. -/
theorem fps_window_report (t0 : ℚ) (ts : List ℚ) (f : ℤ) (s : FpsState)
    (now : ℚ) (hwin : ∀ t ∈ ts, t - t0 < 1000)
    (hpub : 1000 ≤ now - s.lastTime) :
    ticksRun ⟨0, t0, f⟩ (ts ++ [t0 + 1000]) =
      ⟨0, t0 + 1000, (ts.length : ℤ) + 1⟩ ∧
    fpsTick s now =
      ⟨0, now, jsRound ((((s.counter : ℚ) + 1) * 1000) / (now - s.lastTime))⟩ := by
  constructor
  · have hsplit : ticksRun ⟨0, t0, f⟩ (ts ++ [t0 + 1000]) =
        fpsTick (ticksRun ⟨0, t0, f⟩ ts) (t0 + 1000) := by
      simp [ticksRun, List.foldl_append]
    rw [hsplit, ticksRun_no_publish t0 f ts 0 hwin]
    have he : t0 + 1000 - t0 = (1000 : ℚ) := by ring
    simp only [fpsTick, he]
    rw [if_pos (le_refl (1000 : ℚ))]
    have hv : (((0 + ts.length + 1 : ℕ) : ℚ) * 1000) / (1000 : ℚ) =
        (((ts.length : ℤ) + 1 : ℤ) : ℚ) := by
      push_cast
      field_simp
    rw [hv, jsRound_intCast]
  · simp only [fpsTick, if_pos hpub]
    norm_num

/-- C8 witness: three ticks at 100, 200 and 1000 ms starting from a fresh
window at time 0 report an FPS of 3 and reset the counter to 0; and a
single publishing tick matches the rounded formula. -/
theorem fps_window_report_witness :
    ticksRun ⟨0, 0, 0⟩ ([100, 200] ++ [0 + 1000]) =
      ⟨0, 0 + 1000, (([100, 200] : List ℚ).length : ℤ) + 1⟩ ∧
    fpsTick ⟨3, 0, 7⟩ 2000 =
      ⟨0, 2000, jsRound (((((3 : ℕ) : ℚ) + 1) * 1000) / (2000 - 0))⟩ :=
  fps_window_report 0 [100, 200] 0 ⟨3, 0, 7⟩ 2000
    (by
      intro t ht
      simp only [List.mem_cons, List.not_mem_nil, or_false] at ht
      rcases ht with rfl | rfl <;> norm_num)
    (by norm_num)

/-- C9: the GPU-backend line primitive is total — when the two endpoints
coincide it returns `none` (draws nothing), and whenever it does draw,
the segment length it divides by is nonzero. -/
theorem drawLine_total (x1 y1 x2 y2 w : ℝ) :
    (x1 = x2 → y1 = y2 → drawLine x1 y1 x2 y2 w = none) ∧
    (drawLine x1 y1 x2 y2 w ≠ none → lineLen x1 y1 x2 y2 ≠ 0) := by
  constructor
  · intro hx hy
    subst hx
    subst hy
    have hz : lineLen x1 y1 x1 y1 = 0 := by
      simp [lineLen]
    simp [drawLine, hz]
  · intro hne hz
    apply hne
    simp [drawLine, hz]

/-- C9 witness: the degenerate segment from (5, 7) to (5, 7) draws
nothing. -/
theorem drawLine_total_witness : drawLine 5 7 5 7 2 = none :=
  (drawLine_total 5 7 5 7 2).1 rfl rfl

/-- A session step never changes the outcome unless it is `stopFired`. -/
theorem sessionStep_outcome_of_ne (s : Session) (e : SessionEv)
    (h : e ≠ SessionEv.stopFired) : (sessionStep s e).outcome = s.outcome := by
  cases e with
  | data n =>
      simp only [sessionStep]
      split <;> rfl
  | cancel => rfl
  | stopFired => exact absurd rfl h

/-- Events containing no `stopFired` leave the outcome untouched. -/
theorem sessionFoldl_outcome_no_stop :
    ∀ (evs : List SessionEv) (s : Session), SessionEv.stopFired ∉ evs →
      (evs.foldl sessionStep s).outcome = s.outcome := by
  intro evs
  induction evs with
  | nil => intro s _; rfl
  | cons e evs ih =>
      intro s hmem
      have he : e ≠ SessionEv.stopFired := by
        intro h
        exact hmem (h ▸ List.mem_cons_self e evs)
      have h2 : SessionEv.stopFired ∉ evs :=
        fun h => hmem (List.mem_cons_of_mem e h)
      rw [List.foldl_cons, ih _ h2, sessionStep_outcome_of_ne s e he]

/-- The cancelled flag is never cleared by a step. -/
theorem sessionStep_cancelled (s : Session) (e : SessionEv)
    (h : s.cancelled = true) : (sessionStep s e).cancelled = true := by
  cases e with
  | data n =>
      simp only [sessionStep]
      split <;> exact h
  | cancel => rfl
  | stopFired =>
      simp only [sessionStep]
      cases houtcome : s.outcome <;> simp [houtcome] <;> exact h

/-- A settled outcome is never changed by a step. -/
theorem sessionStep_settled (s : Session) (e : SessionEv)
    (r : Except String (List ℕ)) (h : s.outcome = some r) :
    (sessionStep s e).outcome = some r := by
  cases e with
  | data n =>
      simp only [sessionStep]
      split <;> exact h
  | cancel => exact h
  | stopFired =>
      simp only [sessionStep]
      rw [h]
      exact h

/-- A settled outcome survives any further events. -/
theorem sessionFoldl_settled :
    ∀ (evs : List SessionEv) (s : Session) (r : Except String (List ℕ)),
      s.outcome = some r → (evs.foldl sessionStep s).outcome = some r := by
  intro evs
  induction evs with
  | nil => intro s r h; exact h
  | cons e evs ih =>
      intro s r h
      rw [List.foldl_cons]
      exact ih _ r (sessionStep_settled s e r h)

/-- After cancellation, the session can only stay pending or settle with
the cancellation error, and the cancelled flag persists. -/
theorem sessionFoldl_cancel_inv :
    ∀ (evs : List SessionEv) (s : Session), s.cancelled = true →
      (s.outcome = none ∨ s.outcome = some (Except.error "Cancelled")) →
      ((evs.foldl sessionStep s).cancelled = true ∧
       ((evs.foldl sessionStep s).outcome = none ∨
        (evs.foldl sessionStep s).outcome = some (Except.error "Cancelled")) ∧
       (SessionEv.stopFired ∈ evs → (evs.foldl sessionStep s).outcome ≠ none)) := by
  intro evs
  induction evs with
  | nil =>
      intro s h1 h2
      exact ⟨h1, h2, fun h => absurd h (List.not_mem_nil _)⟩
  | cons e evs ih =>
      intro s h1 h2
      have hc : (sessionStep s e).cancelled = true := sessionStep_cancelled s e h1
      have ho : (sessionStep s e).outcome = none ∨
          (sessionStep s e).outcome = some (Except.error "Cancelled") := by
        rcases h2 with h2 | h2
        · by_cases he : e = SessionEv.stopFired
          · subst he
            right
            simp only [sessionStep]
            rw [h2]
            simp [h1]
          · left
            rw [sessionStep_outcome_of_ne s e he, h2]
        · right
          exact sessionStep_settled s e _ h2
      obtain ⟨g1, g2, g3⟩ := ih (sessionStep s e) hc ho
      refine ⟨g1, g2, fun hmem => ?_⟩
      rcases List.mem_cons.mp hmem with he | he
      · subst he
        have hsettled : (sessionStep s SessionEv.stopFired).outcome =
            some (Except.error "Cancelled") := by
          rcases h2 with h2 | h2
          · simp only [sessionStep]
            rw [h2]
            simp [h1]
          · exact sessionStep_settled s _ _ h2
        have := sessionFoldl_settled evs (sessionStep s SessionEv.stopFired) _ hsettled
        rw [List.foldl_cons, this]
        exact Option.some_ne_none _
      · exact g3 he

/-- C6: in every session trace where `cancel()` runs before the `onstop`
callback of the recorder fires, the session ends in the cancelled terminal
state, its promise rejects with the `"Cancelled"` error — distinct from
any normal completion — and in particular it never resolves with the
partially accumulated chunks as a valid result. -/
theorem cancel_rejects (pre post : List SessionEv)
    (hpre : SessionEv.stopFired ∉ pre)
    (hpost : SessionEv.stopFired ∈ post) :
    (sessionRun (pre ++ SessionEv.cancel :: post)).cancelled = true ∧
    (sessionRun (pre ++ SessionEv.cancel :: post)).outcome =
      some (Except.error "Cancelled") ∧
    ∀ cs : List ℕ,
      (sessionRun (pre ++ SessionEv.cancel :: post)).outcome ≠
        some (Except.ok cs) := by
  have hrun : sessionRun (pre ++ SessionEv.cancel :: post) =
      post.foldl sessionStep
        (sessionStep (pre.foldl sessionStep sessionInit) SessionEv.cancel) := by
    simp [sessionRun, List.foldl_append, List.foldl_cons]
  have hpreo : (pre.foldl sessionStep sessionInit).outcome = none :=
    sessionFoldl_outcome_no_stop pre sessionInit hpre
  have hc1 : (sessionStep (pre.foldl sessionStep sessionInit)
      SessionEv.cancel).cancelled = true := rfl
  have ho1 : (sessionStep (pre.foldl sessionStep sessionInit)
      SessionEv.cancel).outcome = none := by
    simpa [sessionStep] using hpreo
  obtain ⟨g1, g2, g3⟩ :=
    sessionFoldl_cancel_inv post
      (sessionStep (pre.foldl sessionStep sessionInit) SessionEv.cancel)
      hc1 (Or.inl ho1)
  have houtcome : (sessionRun (pre ++ SessionEv.cancel :: post)).outcome =
      some (Except.error "Cancelled") := by
    rw [hrun]
    rcases g2 with g2 | g2
    · exact absurd g2 (g3 hpost)
    · exact g2
  refine ⟨by rw [hrun]; exact g1, houtcome, fun cs h => ?_⟩
  rw [houtcome] at h
  simp at h

/-- C6 witness: a trace that records one chunk, is cancelled, records
another chunk and then receives `onstop` ends cancelled, rejected with
the cancellation error. -/
theorem cancel_rejects_witness :
    (sessionRun ([SessionEv.data 5] ++
      SessionEv.cancel :: [SessionEv.data 3, SessionEv.stopFired])).cancelled = true ∧
    (sessionRun ([SessionEv.data 5] ++
      SessionEv.cancel :: [SessionEv.data 3, SessionEv.stopFired])).outcome =
      some (Except.error "Cancelled") ∧
    ∀ cs : List ℕ,
      (sessionRun ([SessionEv.data 5] ++
        SessionEv.cancel :: [SessionEv.data 3, SessionEv.stopFired])).outcome ≠
        some (Except.ok cs) :=
  cancel_rejects [SessionEv.data 5] [SessionEv.data 3, SessionEv.stopFired]
    (by decide) (by decide)

/-- One draw-loop step preserves the scheduling invariant: at most one
animation-frame callback is pending, and none is pending while the loop
is not animating. -/
theorem stepGL_inv (s : GLState) (e : GLEv)
    (h1 : s.pending ≤ 1) (h2 : s.isAnimating = false → s.pending = 0) :
    (stepGL s e).pending ≤ 1 ∧
    ((stepGL s e).isAnimating = false → (stepGL s e).pending = 0) := by
  cases e with
  | start p ok =>
      simp only [stepGL]
      by_cases ha : s.isAnimating = true
      · rw [if_pos ha]
        exact ⟨h1, fun hf => h2 hf⟩
      · have hp : s.pending = 0 := h2 (Bool.not_eq_true _ ▸ ha)
        rw [if_neg ha]
        cases ok with
        | true => simp [hp]
        | false => simp [hp]
  | tick =>
      simp only [stepGL]
      by_cases hp : s.pending = 0
      · rw [if_pos hp]
        exact ⟨h1, h2⟩
      · rw [if_neg hp]
        cases hl : s.latest with
        | none => simp; omega
        | some q =>
            simp only
            constructor
            · simp; omega
            · intro hf
              exact absurd (h2 hf) hp
  | stop =>
      refine ⟨?_, fun _ => ?_⟩
      · show s.pending - 1 ≤ 1
        omega
      · show s.pending - 1 = 0
        omega

/-- The scheduling invariant holds along any run of the draw loop. -/
theorem foldlGL_inv :
    ∀ (evs : List GLEv) (s : GLState), s.pending ≤ 1 →
      (s.isAnimating = false → s.pending = 0) →
      (evs.foldl stepGL s).pending ≤ 1 ∧
      ((evs.foldl stepGL s).isAnimating = false →
        (evs.foldl stepGL s).pending = 0) := by
  intro evs
  induction evs with
  | nil => intro s h1 h2; exact ⟨h1, h2⟩
  | cons e evs ih =>
      intro s h1 h2
      obtain ⟨g1, g2⟩ := stepGL_inv s e h1 h2
      rw [List.foldl_cons]
      exact ih _ g1 g2

/-- C7: after any sequence of draw-loop events, at most one
animation-frame callback is scheduled (a single tick chain per
backend), and a `drawBarsWebGL` call arriving while the loop is
animating only replaces the stored latest parameters — the ones the
next tick will use — leaving the rest of the state, in particular the
number of scheduled callbacks, unchanged. -/
theorem drawLoop_single_flight (evs : List GLEv) :
    (runGL evs).pending ≤ 1 ∧
    ∀ (p : GLParams) (ok : Bool), (runGL evs).isAnimating = true →
      stepGL (runGL evs) (GLEv.start p ok) =
        { runGL evs with latest := some p } := by
  constructor
  · exact (foldlGL_inv evs initGL (by simp [initGL]) (fun _ => by simp [initGL])).1
  · intro p ok h
    simp only [stepGL]
    rw [if_pos h]

/-- C7 witness: with the loop already animating after one successful
start, a second start call only swaps in the new parameters. -/
theorem drawLoop_single_flight_witness :
    stepGL (runGL [GLEv.start ⟨1, 1, 0, 1, ⟨1, 1, 0, 0⟩⟩ true])
        (GLEv.start ⟨2, 2, 3, 2, ⟨1, 1, 0, 0⟩⟩ false) =
      { runGL [GLEv.start ⟨1, 1, 0, 1, ⟨1, 1, 0, 0⟩⟩ true] with
          latest := some ⟨2, 2, 3, 2, ⟨1, 1, 0, 0⟩⟩ } :=
  (drawLoop_single_flight [GLEv.start ⟨1, 1, 0, 1, ⟨1, 1, 0, 0⟩⟩ true]).2
    ⟨2, 2, 3, 2, ⟨1, 1, 0, 0⟩⟩ false rfl

end MusicWaves
